import Mathlib

/-!
Verification of the ai-code-reviewer pipeline (two variants:
`sonar-reviewer.js`, the console-report variant, and `reviewer.js`, the
PR-comment variant) against its natural-language specification.

The JavaScript sources are shallowly embedded: each JS function becomes a
Lean function over explicit inputs (HTTP responses, chat-completion
outcomes as `Except`, the per-attempt outcome of the completion call as a
function from attempt index to outcome).  JS `undefined`/absent fields
are modelled with `Option`; JS truthiness tests on those values are
modelled explicitly.
-/

namespace AiCodeReviewer

/-- One static-analysis finding as returned by the quality server.
`line` is `Option Nat`: `none` models an absent field, `some 0` a present
but falsy value. -/
structure Finding where
  rule : String
  severity : String
  component : String
  line : Option Nat
  message : String
deriving DecidableEq

/-- Model of JS `String.prototype.split` with a single-character
separator, at the character-list level. -/
def splitAux (sep : Char) : List Char → List Char → List (List Char)
  | [], acc => [acc.reverse]
  | c :: cs, acc =>
    if c = sep then acc.reverse :: splitAux sep cs []
    else splitAux sep cs (c :: acc)

/-- JS `s.split(sep)` for a one-character separator. -/
def jsSplit (sep : Char) (s : String) : List String :=
  (splitAux sep s.toList []).map String.mk

/-- Model of `issue.component.split(":")[1] || issue.component`
(sonar-reviewer.js line 134): JS yields the whole component when index 1
is `undefined` (no colon) or the empty string (falsy). -/
def componentPathConsole (component : String) : String :=
  match (jsSplit ':' component).get? 1 with
  | some p => if p = "" then component else p
  | none => component

/-- Model of `issue.component.split(":")[1]` (reviewer.js line 97): `none` models
JS `undefined` when the component has no colon. -/
def componentPathPR (component : String) : Option String :=
  (jsSplit ':' component).get? 1

/-- Boolean substring test, modelling JS `String.prototype.includes`. -/
def containsSub (s pat : String) : Bool :=
  decide (pat.toList <:+: s.toList)

/-- Transient-connectivity classification of a failure message
(sonar-reviewer.js line 81). -/
def isConn (msg : String) : Bool :=
  containsSub msg "APIConnectionError" || containsSub msg "fetch failed" ||
    containsSub msg "ENOTFOUND" || containsSub msg "ETIMEDOUT"

/-- Loop body of `withRetry` (sonar-reviewer.js lines 72-89).
`attempts k` is the outcome of the k-th invocation of the wrapped
operation; `remaining = retries - attempt` is the retry budget left.
Returns the final outcome, the total number of invocations, and the list
of back-off delays in the order they were slept. -/
def withRetryGo (attempts : Nat → Except String α) (baseDelayMs : Nat) :
    Nat → Nat → Except String α × Nat × List Nat
  | attempt, 0 =>
    match attempts attempt with
    | Except.ok a => (Except.ok a, attempt + 1, [])
    | Except.error msg => (Except.error msg, attempt + 1, [])
  | attempt, r + 1 =>
    match attempts attempt with
    | Except.ok a => (Except.ok a, attempt + 1, [])
    | Except.error msg =>
      if isConn msg then
        ((withRetryGo attempts baseDelayMs (attempt + 1) r).1,
         (withRetryGo attempts baseDelayMs (attempt + 1) r).2.1,
         baseDelayMs * 2 ^ attempt :: (withRetryGo attempts baseDelayMs (attempt + 1) r).2.2)
      else (Except.error msg, attempt + 1, [])

/-- Embedding of `withRetry` (sonar-reviewer.js lines 72-89): result, number of invocations, delays slept. -/
def withRetry (attempts : Nat → Except String α) (retries baseDelayMs : Nat) :
    Except String α × Nat × List Nat :=
  withRetryGo attempts baseDelayMs 0 retries

/-- One chat message (role and content). -/
structure ChatMessage where
  role : String
  content : String
deriving DecidableEq

/-- One choice of a chat-completion response. -/
structure Choice where
  message : ChatMessage
deriving DecidableEq

/-- A chat-completion response body: the list of choices. -/
structure ChatResponse where
  choices : List Choice
deriving DecidableEq

/-- A chat-completion request as built by both variants: a model name, a
single user message, `max_tokens: 200`. -/
structure ChatRequest where
  model : String
  messages : List ChatMessage
  max_tokens : Nat
deriving DecidableEq

/-- The whitespace set of JS `String.prototype.trim`, restricted to the
code points below 0x21 plus NBSP (the JS set also has Unicode space
separators, irrelevant here). -/
def jsWhitespace (c : Char) : Bool :=
  c.val = 32 || c.val = 9 || c.val = 10 || c.val = 13 || c.val = 11 || c.val = 12 ||
    c.val = 160

/-- Model of JS `String.prototype.trim`: strip `jsWhitespace` characters
from both ends. -/
def jsTrim (s : String) : String :=
  String.mk (((s.toList.dropWhile jsWhitespace).reverse.dropWhile jsWhitespace).reverse)

/-- Model of `issue.line || "N/A"` (reviewer.js line 53, sonar-reviewer.js
lines 101 and 135): JS renders the number unless the field is absent
(`undefined`) or falsy (`0`), in which case the literal "N/A" is used. -/
def lineDisplay : Option Nat → String
  | some n => if n = 0 then "N/A" else toString n
  | none => "N/A"

/-- Model of `line || 1` (reviewer.js line 81): the line actually sent to the
review-comment API; absent (`undefined`) and falsy (`0`) both become 1. -/
def effectiveLine : Option Nat → Nat
  | some n => if n = 0 then 1 else n
  | none => 1

/-- The prompt template shared by both variants (reviewer.js lines 45-55,
sonar-reviewer.js lines 93-103), parameterised by the rendered line
text. -/
def buildPromptCore (issue : Finding) (lineText : String) : String :=
  "\nYou are a code reviewer. Summarize this SonarQube issue into a clear GitHub PR comment.\nExplain in simple language, give reasoning, and suggest a fix.\n\nIssue:\nRule: " ++
    issue.rule ++ "\nSeverity: " ++ issue.severity ++ "\nFile: " ++ issue.component ++
    "\nLine: " ++ lineText ++ "\nMessage: " ++ issue.message ++ "\n  "

/-- The prompt both variants build for a finding. -/
def buildPrompt (issue : Finding) : String :=
  buildPromptCore issue (lineDisplay issue.line)

/-- The chat-completion request both variants send for a finding. -/
def completionRequest (modelName : String) (issue : Finding) : ChatRequest :=
  ⟨modelName, [⟨"user", buildPrompt issue⟩], 200⟩

/-- Embedding of `enhanceWithGPT` of reviewer.js (lines 44-69), as a function of the
completion call's outcome.  On success it returns the first choice's
trimmed content; an empty `choices` list makes
`response.choices[0].message` throw inside the same `try`, so it also
falls back to the original message, as does a failed call. -/
def enhanceWithGPT (issue : Finding) (completion : Except String ChatResponse) : String :=
  match completion with
  | Except.ok resp =>
    match resp.choices with
    | c :: _ => jsTrim c.message.content
    | [] => issue.message
  | Except.error _ => issue.message

/-- Embedding of `enhanceWithGPT` of sonar-reviewer.js (lines 92-116): the completion
call is wrapped in `withRetry` with its default options
(retries 2, baseDelayMs 500); `attempts k` is the outcome of the k-th
attempt of the wrapped call. -/
def enhanceSonarWithGPT (issue : Finding) (attempts : Nat → Except String ChatResponse) : String :=
  match (withRetry attempts 2 500).1 with
  | Except.ok resp =>
    match resp.choices with
    | c :: _ => jsTrim c.message.content
    | [] => issue.message
  | Except.error _ => issue.message

/-- A parsed quality-server search response body: the optional top-level
`issues` field. -/
structure SearchBody where
  issues : Option (List Finding)

/-- An HTTP response as seen by `fetchSonarIssues`: `ok`, `statusText`
and the parsed JSON body. -/
structure HttpResponse where
  ok : Bool
  statusText : String
  body : SearchBody

/-- Embedding of `fetchSonarIssues` (reviewer.js lines 25-41,
sonar-reviewer.js lines 53-69), as a function of the HTTP response: a non-ok status throws an
error carrying the status text, otherwise `data.issues || []` is
returned. -/
def fetchSonarIssues (res : HttpResponse) : Except String (List Finding) :=
  if res.ok then
    Except.ok (match res.body.issues with
      | some issues => issues
      | none => [])
  else
    Except.error ("SonarQube API error: " ++ res.statusText)

/-- Repository coordinates used by the PR-comment variant. -/
structure RepoCfg where
  owner : String
  repo : String
  pull_number : String
  commit_id : String
deriving DecidableEq

/-- The review comment a `postComment` call submits. -/
structure ReviewComment where
  owner : String
  repo : String
  pull_number : String
  body : String
  commit_id : String
  path : Option String
  line : Nat
deriving DecidableEq

/-- Embedding of `postComment(body, path, line)` (reviewer.js lines 72-86): the review
comment it submits; the line sent is `line || 1`. -/
def postComment (cfg : RepoCfg) (body : String) (path : Option String)
    (line : Option Nat) : ReviewComment :=
  ⟨cfg.owner, cfg.repo, cfg.pull_number, body, cfg.commit_id, path, effectiveLine line⟩

/-- Observable per-finding steps of the two runners, tagged with the
finding's position in the fetched list. -/
inductive Step where
  | printHeader (i : Nat)
  | enrich (i : Nat)
  | printEnriched (i : Nat)
  | publish (i : Nat)
deriving DecidableEq

/-- The `"=".repeat(80)` separator printed by the console variant. -/
def separatorLine : String :=
  String.mk (List.replicate 80 '=')

/-- The console lines printed for a finding before its enrichment call
(sonar-reviewer.js lines 133-138). -/
def consoleHeader (issue : Finding) : List String :=
  [separatorLine,
   "📁 File: " ++ componentPathConsole issue.component,
   "📍 Line: " ++ lineDisplay issue.line,
   "⚠️  Severity: " ++ issue.severity,
   "🔧 Rule: " ++ issue.rule,
   "💬 Original Message: " ++ issue.message]

/-- The console lines printed for a finding after its enrichment call
(sonar-reviewer.js lines 141-143). -/
def consoleTail (gptComment : String) : List String :=
  ["\n🤖 GPT Enhanced Review:", gptComment, "\n"]

/-- The per-finding loop of the console runner (sonar-reviewer.js lines
132-144): for each finding it prints the header block, then awaits
enrichment, then prints the enriched review.  Returns the step trace
(indexed from `i`) and the printed lines.  `oracle issue` gives the
per-attempt completion outcomes for that finding. -/
def runLoopConsole (oracle : Finding → Nat → Except String ChatResponse) :
    List Finding → Nat → List Step × List String
  | [], _ => ([], [])
  | issue :: rest, i =>
    (Step.printHeader i :: Step.enrich i :: Step.printEnriched i ::
       (runLoopConsole oracle rest (i + 1)).1,
     (consoleHeader issue ++ consoleTail (enhanceSonarWithGPT issue (oracle issue))) ++
       (runLoopConsole oracle rest (i + 1)).2)

/-- The per-finding loop of the PR runner (reviewer.js lines 92-100): for
each finding it awaits enrichment, logs the enriched comment, derives the
path, and awaits `postComment`.  Returns the step trace (indexed from
`i`) and the submitted review comments. -/
def runLoopPR (cfg : RepoCfg) (oracle : Finding → Except String ChatResponse) :
    List Finding → Nat → List Step × List ReviewComment
  | [], _ => ([], [])
  | issue :: rest, i =>
    (Step.enrich i :: Step.printEnriched i :: Step.publish i ::
       (runLoopPR cfg oracle rest (i + 1)).1,
     postComment cfg (enhanceWithGPT issue (oracle issue))
         (componentPathPR issue.component) issue.line ::
       (runLoopPR cfg oracle rest (i + 1)).2)

/-- Embedding of `run` of sonar-reviewer.js (lines 119-148): fetch, early return on an
empty list, otherwise the per-finding loop.  A fetch failure propagates
(the process exits non-zero); success carries the step trace and printed
lines. -/
def runConsole (oracle : Finding → Nat → Except String ChatResponse)
    (res : HttpResponse) : Except String (List Step × List String) :=
  match fetchSonarIssues res with
  | Except.error e => Except.error e
  | Except.ok issues =>
    if issues.length = 0 then Except.ok ([], [])
    else Except.ok (runLoopConsole oracle issues 0)

/-- Embedding of `run` of reviewer.js (lines 89-101): fetch then the per-finding loop.
A fetch failure propagates; success carries the step trace and the
submitted review comments. -/
def runPR (cfg : RepoCfg) (oracle : Finding → Except String ChatResponse)
    (res : HttpResponse) : Except String (List Step × List ReviewComment) :=
  match fetchSonarIssues res with
  | Except.error e => Except.error e
  | Except.ok issues => Except.ok (runLoopPR cfg oracle issues 0)

end AiCodeReviewer


namespace AiCodeReviewer

/-! ### Helper lemmas about the embedded JS split -/

theorem toList_append (s t : String) : (s ++ t).toList = s.toList ++ t.toList := rfl

theorem mk_toList (s : String) : String.mk s.toList = s := rfl

theorem mk_data (s : String) : String.mk s.data = s := rfl

theorem splitAux_of_not_mem (sep : Char) (l acc : List Char) (h : sep ∉ l) :
    splitAux sep l acc = [acc.reverse ++ l] := by
  induction l generalizing acc with
  | nil => simp [splitAux]
  | cons c cs ih =>
    simp only [List.mem_cons, not_or] at h
    have hc : ¬ c = sep := Ne.symm h.1
    simp [splitAux, hc, ih _ h.2]

theorem splitAux_append (sep : Char) (a rest acc : List Char) (h : sep ∉ a) :
    splitAux sep (a ++ sep :: rest) acc = (acc.reverse ++ a) :: splitAux sep rest [] := by
  induction a generalizing acc with
  | nil => simp [splitAux]
  | cons c cs ih =>
    simp only [List.mem_cons, not_or] at h
    have hc : ¬ c = sep := Ne.symm h.1
    simp [splitAux, hc, ih _ h.2]

theorem jsSplit_no_colon (s : String) (h : ':' ∉ s.toList) : jsSplit ':' s = [s] := by
  show (splitAux ':' s.toList []).map String.mk = [s]
  rw [splitAux_of_not_mem ':' s.toList [] h]
  simp [mk_toList, mk_data]

theorem jsSplit_one_colon (a b : String) (ha : ':' ∉ a.toList) (hb : ':' ∉ b.toList) :
    jsSplit ':' (a ++ ":" ++ b) = [a, b] := by
  have hl : (a ++ ":" ++ b).toList = a.toList ++ ':' :: b.toList := by
    rw [toList_append, toList_append, List.append_assoc]
    exact congrArg (a.toList ++ ·) rfl
  show (splitAux ':' (a ++ ":" ++ b).toList []).map String.mk = [a, b]
  rw [hl, splitAux_append ':' a.toList b.toList [] ha,
    splitAux_of_not_mem ':' b.toList [] hb]
  simp [mk_toList, mk_data]

theorem jsSplit_two_colons (a b c : String) (ha : ':' ∉ a.toList) (hb : ':' ∉ b.toList)
    (hc : ':' ∉ c.toList) :
    jsSplit ':' (a ++ ":" ++ b ++ ":" ++ c) = [a, b, c] := by
  have hl : (a ++ ":" ++ b ++ ":" ++ c).toList =
      a.toList ++ ':' :: (b.toList ++ ':' :: c.toList) := by
    rw [toList_append, toList_append, toList_append, toList_append,
      List.append_assoc, List.append_assoc, List.append_assoc]
    exact congrArg (a.toList ++ ·) rfl
  show (splitAux ':' (a ++ ":" ++ b ++ ":" ++ c).toList []).map String.mk = [a, b, c]
  rw [hl, splitAux_append ':' a.toList _ [] ha,
    splitAux_append ':' b.toList c.toList [] hb,
    splitAux_of_not_mem ':' c.toList [] hc]
  simp [mk_toList, mk_data]

end AiCodeReviewer

namespace AiCodeReviewer

/-! ### Helper lemmas about the retry wrapper -/

theorem withRetryGo_ok {α : Type} (attempts : Nat → Except String α) (baseDelayMs : Nat)
    (attempt : Nat) (a : α) (h : attempts attempt = Except.ok a) :
    ∀ remaining, withRetryGo attempts baseDelayMs attempt remaining =
      (Except.ok a, attempt + 1, []) := by
  intro remaining
  cases remaining with
  | zero => simp [withRetryGo, h]
  | succ r => simp [withRetryGo, h]

theorem withRetryGo_stop {α : Type} (attempts : Nat → Except String α) (baseDelayMs : Nat)
    (attempt : Nat) (m : String) (h : attempts attempt = Except.error m)
    (hc : isConn m = false) :
    ∀ remaining, withRetryGo attempts baseDelayMs attempt remaining =
      (Except.error m, attempt + 1, []) := by
  intro remaining
  cases remaining with
  | zero => simp [withRetryGo, h]
  | succ r => simp [withRetryGo, h, hc]

theorem withRetryGo_retry {α : Type} (attempts : Nat → Except String α) (baseDelayMs : Nat)
    (attempt r : Nat) (m : String) (h : attempts attempt = Except.error m)
    (hc : isConn m = true) :
    withRetryGo attempts baseDelayMs attempt (r + 1) =
      ((withRetryGo attempts baseDelayMs (attempt + 1) r).1,
       (withRetryGo attempts baseDelayMs (attempt + 1) r).2.1,
       baseDelayMs * 2 ^ attempt :: (withRetryGo attempts baseDelayMs (attempt + 1) r).2.2) := by
  simp [withRetryGo, h, hc]

theorem withRetryGo_count {α : Type} (attempts : Nat → Except String α) (baseDelayMs : Nat) :
    ∀ remaining attempt,
      (withRetryGo attempts baseDelayMs attempt remaining).2.1 ≤ attempt + remaining + 1 := by
  intro remaining
  induction remaining with
  | zero =>
    intro attempt
    cases h : attempts attempt with
    | ok a => simp [withRetryGo, h]
    | error m => simp [withRetryGo, h]
  | succ r ih =>
    intro attempt
    cases h : attempts attempt with
    | ok a => simp [withRetryGo, h]
    | error m =>
      by_cases hc : isConn m
      · have hr := ih (attempt + 1)
        simp [withRetryGo, h, hc]
        omega
      · simp [withRetryGo, h, hc]

end AiCodeReviewer

namespace AiCodeReviewer

/-! ### C1: file-path extraction from the component string -/

/-- C1 (counterexample): the claim says both strategies take the
substring after the FIRST colon (so "src/a:b.ts" for
"myproj:src/a:b.ts") and the whole component when no colon is present
(so "myproj" for "myproj").  The code takes `split(":")[1]`, which stops
at the second colon, and the PR variant has no fallback for a
colon-free component: it passes JS `undefined` (here `none`). -/
theorem c1_counterexample :
    componentPathConsole "myproj:src/a:b.ts" = "src/a" ∧
    componentPathConsole "myproj:src/a:b.ts" ≠ "src/a:b.ts" ∧
    componentPathPR "myproj" ≠ some "myproj" := by
  refine ⟨rfl, ?_, ?_⟩ <;> decide

/-- C1 (amended): both strategies take the SECOND `:`-separated field of
the component (the text between the first and second colon, or after the
first colon when it is the only one).  The console strategy falls back to
the whole component string when that field is absent (no colon); the PR
strategy yields no path (`undefined`) for a colon-free component.  For
`"myproj:src/a/b.ts"` both extract `"src/a/b.ts"`. -/
theorem c1_path_extraction (a b : String)
    (ha : ':' ∉ a.toList) (hb : ':' ∉ b.toList) (hbne : b ≠ "") :
    componentPathConsole (a ++ ":" ++ b) = b ∧
    componentPathPR (a ++ ":" ++ b) = some b ∧
    componentPathConsole a = a ∧
    componentPathPR a = none ∧
    ∀ c : String, ':' ∉ c.toList →
      componentPathConsole (a ++ ":" ++ b ++ ":" ++ c) = b ∧
      componentPathPR (a ++ ":" ++ b ++ ":" ++ c) = some b := by
  have h1 := jsSplit_one_colon a b ha hb
  have h0 := jsSplit_no_colon a ha
  refine ⟨?_, ?_, ?_, ?_, ?_⟩
  · simp [componentPathConsole, h1, hbne]
  · simp [componentPathPR, h1]
  · simp [componentPathConsole, h0]
  · simp [componentPathPR, h0]
  · intro c hcc
    have h2 := jsSplit_two_colons a b c ha hb hcc
    exact ⟨by simp [componentPathConsole, h2, hbne], by simp [componentPathPR, h2]⟩

/-- C1 (witness): the amended theorem evaluated at
`component = "myproj" ++ ":" ++ "src/a/b.ts"`. -/
theorem c1_witness :
    componentPathConsole ("myproj" ++ ":" ++ "src/a/b.ts") = "src/a/b.ts" ∧
    componentPathPR "myproj" = none :=
  have h := c1_path_extraction "myproj" "src/a/b.ts" (by decide) (by decide) (by decide)
  ⟨h.1, h.2.2.2.1⟩

end AiCodeReviewer

namespace AiCodeReviewer

/-! ### C2: enrichment failure falls back to the original message -/

/-- C2: when the chat-completion call fails — immediately in the
reviewer.js variant, or after `withRetry` exhausts its budget in the
sonar-reviewer.js variant — `enhanceWithGPT` returns the finding's
original `message` field exactly; being a total function, it never
aborts the pipeline for that finding. -/
theorem c2_enrichment_failure_returns_original (issue : Finding)
    (completion : Except String ChatResponse)
    (attempts : Nat → Except String ChatResponse) (e e2 : String)
    (hc : completion = Except.error e)
    (ha : (withRetry attempts 2 500).1 = Except.error e2) :
    enhanceWithGPT issue completion = issue.message ∧
    enhanceSonarWithGPT issue attempts = issue.message := by
  constructor
  · rw [hc]
    rfl
  · unfold enhanceSonarWithGPT
    rw [ha]

/-- C2 (witness): a completion call failing with "boom" (non-transient,
so the retrying variant gives up at once) leaves the original message
"orig" untouched in both variants. -/
theorem c2_witness :
    enhanceWithGPT ⟨"r", "MAJOR", "p:f.ts", some 3, "orig"⟩ (Except.error "boom") = "orig" ∧
    enhanceSonarWithGPT ⟨"r", "MAJOR", "p:f.ts", some 3, "orig"⟩
      (fun _ => Except.error "boom") = "orig" :=
  c2_enrichment_failure_returns_original ⟨"r", "MAJOR", "p:f.ts", some 3, "orig"⟩
    (Except.error "boom") (fun _ => Except.error "boom") "boom" "boom" rfl rfl

/-! ### C3: two transient failures then success -/

/-- C3: an operation failing twice with transient messages and then
succeeding makes `withRetry` (retries 2) return the success value after
exactly 3 invocations, sleeping exactly the two delays
`baseDelayMs * 2 ^ 0` then `baseDelayMs * 2 ^ 1` in that order; and with
retries 2 no operation is ever invoked more than 3 times. -/
theorem c3_retry_two_transient_then_success {α : Type} (attempts : Nat → Except String α)
    (baseDelayMs : Nat) (m0 m1 : String) (v : α)
    (h0 : attempts 0 = Except.error m0) (h1 : attempts 1 = Except.error m1)
    (h2 : attempts 2 = Except.ok v)
    (t0 : isConn m0 = true) (t1 : isConn m1 = true) :
    withRetry attempts 2 baseDelayMs =
      (Except.ok v, 3, [baseDelayMs * 2 ^ 0, baseDelayMs * 2 ^ 1]) ∧
    ∀ f : Nat → Except String α, (withRetry f 2 baseDelayMs).2.1 ≤ 3 := by
  constructor
  · show withRetryGo attempts baseDelayMs 0 2 = _
    rw [withRetryGo_retry attempts baseDelayMs 0 1 m0 h0 t0,
      withRetryGo_retry attempts baseDelayMs 1 0 m1 h1 t1,
      withRetryGo_ok attempts baseDelayMs 2 v h2 0]
  · intro f
    exact withRetryGo_count f baseDelayMs 2 0

/-- C3 (witness): the operation failing twice with "ETIMEDOUT" then
succeeding with 7, at baseDelayMs 500. -/
theorem c3_witness :
    withRetry (fun n => if n ≤ 1 then Except.error "ETIMEDOUT" else Except.ok 7) 2 500 =
      (Except.ok 7, 3, [500 * 2 ^ 0, 500 * 2 ^ 1]) :=
  (c3_retry_two_transient_then_success
    (fun n => if n ≤ 1 then Except.error "ETIMEDOUT" else Except.ok 7) 500
    "ETIMEDOUT" "ETIMEDOUT" 7 rfl rfl rfl (by decide) (by decide)).1

/-! ### C4: non-transient failure is re-raised at once -/

/-- C4: an operation whose first failure message matches no transient
pattern is invoked exactly once by `withRetry`, which re-raises that same
failure with no delay, whatever the retry budget. -/
theorem c4_nontransient_single_attempt {α : Type} (attempts : Nat → Except String α)
    (retries baseDelayMs : Nat) (m : String)
    (h0 : attempts 0 = Except.error m) (hc : isConn m = false) :
    withRetry attempts retries baseDelayMs = (Except.error m, 1, []) := by
  show withRetryGo attempts baseDelayMs 0 retries = _
  rw [withRetryGo_stop attempts baseDelayMs 0 m h0 hc retries]

/-- C4 (witness): a "401 Unauthorized" failure with a budget of 5
retries is still re-raised after a single invocation, with no delays. -/
theorem c4_witness :
    withRetry (fun _ => (Except.error "401 Unauthorized" : Except String Nat)) 5 500 =
      (Except.error "401 Unauthorized", 1, []) :=
  c4_nontransient_single_attempt (fun _ => Except.error "401 Unauthorized") 5 500
    "401 Unauthorized" rfl (by decide)

end AiCodeReviewer

namespace AiCodeReviewer

/-! ### C5: fetchFindings raises iff the HTTP status is non-success -/

/-- C5: `fetchSonarIssues` fails exactly on a non-success HTTP status,
with an error carrying the response's status text; on success it returns
the body's `issues` array unchanged (hence in server order), or the
empty list when the field is absent. -/
theorem c5_fetch_raises_iff_not_ok (res : HttpResponse) :
    (res.ok = false →
      fetchSonarIssues res = Except.error ("SonarQube API error: " ++ res.statusText)) ∧
    (∀ issues, res.ok = true → res.body.issues = some issues →
      fetchSonarIssues res = Except.ok issues) ∧
    (res.ok = true → res.body.issues = none → fetchSonarIssues res = Except.ok []) ∧
    ∀ e, fetchSonarIssues res = Except.error e → res.ok = false := by
  refine ⟨?_, ?_, ?_, ?_⟩
  · intro h
    simp [fetchSonarIssues, h]
  · intro issues hok hsome
    simp [fetchSonarIssues, hok, hsome]
  · intro hok hnone
    simp [fetchSonarIssues, hok, hnone]
  · intro e he
    by_contra hok
    rw [Bool.not_eq_false] at hok
    simp [fetchSonarIssues, hok] at he

/-- C5 (witness): a 503 response fails with its status text; an ok
response with no `issues` field yields the empty list; an ok response
with issues returns them unchanged. -/
theorem c5_witness :
    fetchSonarIssues ⟨false, "Service Unavailable", ⟨some []⟩⟩ =
      Except.error ("SonarQube API error: " ++ "Service Unavailable") ∧
    fetchSonarIssues ⟨true, "OK", ⟨none⟩⟩ = Except.ok [] ∧
    fetchSonarIssues ⟨true, "OK", ⟨some [⟨"r", "MAJOR", "p:f.ts", some 3, "m"⟩]⟩⟩ =
      Except.ok [⟨"r", "MAJOR", "p:f.ts", some 3, "m"⟩] :=
  ⟨(c5_fetch_raises_iff_not_ok ⟨false, "Service Unavailable", ⟨some []⟩⟩).1 rfl,
   (c5_fetch_raises_iff_not_ok ⟨true, "OK", ⟨none⟩⟩).2.2.1 rfl rfl,
   (c5_fetch_raises_iff_not_ok ⟨true, "OK", ⟨some [⟨"r", "MAJOR", "p:f.ts", some 3, "m"⟩]⟩⟩).2.1
     [⟨"r", "MAJOR", "p:f.ts", some 3, "m"⟩] rfl rfl⟩

/-! ### C6: successful enrichment publishes the trimmed model output -/

/-- C6: when the chat-completion call succeeds with a first choice, both
variants' `enhanceWithGPT` return that choice's message content with
surrounding whitespace trimmed, and that trimmed text — not the raw
original message — is what reaches the publisher: it is the `body` of
the review comment the PR variant submits and the review line the
console variant prints. -/
theorem c6_success_publishes_trimmed (issue : Finding) (resp : ChatResponse)
    (c : Choice) (rest : List Choice) (attempts : Nat → Except String ChatResponse)
    (cfg : RepoCfg)
    (hres : resp.choices = c :: rest)
    (ha : (withRetry attempts 2 500).1 = Except.ok resp) :
    enhanceWithGPT issue (Except.ok resp) = jsTrim c.message.content ∧
    enhanceSonarWithGPT issue attempts = jsTrim c.message.content ∧
    (postComment cfg (enhanceWithGPT issue (Except.ok resp))
        (componentPathPR issue.component) issue.line).body = jsTrim c.message.content ∧
    consoleTail (enhanceSonarWithGPT issue attempts) =
      ["\n🤖 GPT Enhanced Review:", jsTrim c.message.content, "\n"] := by
  have h1 : enhanceWithGPT issue (Except.ok resp) = jsTrim c.message.content := by
    simp [enhanceWithGPT, hres]
  have h2 : enhanceSonarWithGPT issue attempts = jsTrim c.message.content := by
    unfold enhanceSonarWithGPT
    rw [ha]
    simp [hres]
  exact ⟨h1, h2, by simp [postComment, h1], by simp [consoleTail, h2]⟩

/-- C6 (witness): a successful completion whose first choice reads
"  hi  " is published as "hi" by both variants. -/
theorem c6_witness :
    enhanceWithGPT ⟨"r", "MAJOR", "p:f.ts", some 2, "orig"⟩
        (Except.ok ⟨[⟨⟨"assistant", "  hi  "⟩⟩]⟩) = "hi" ∧
    enhanceSonarWithGPT ⟨"r", "MAJOR", "p:f.ts", some 2, "orig"⟩
        (fun _ => Except.ok ⟨[⟨⟨"assistant", "  hi  "⟩⟩]⟩) = "hi" :=
  have h := c6_success_publishes_trimmed ⟨"r", "MAJOR", "p:f.ts", some 2, "orig"⟩
    ⟨[⟨⟨"assistant", "  hi  "⟩⟩]⟩ ⟨⟨"assistant", "  hi  "⟩⟩ []
    (fun _ => Except.ok ⟨[⟨⟨"assistant", "  hi  "⟩⟩]⟩) ⟨"o", "r", "1", "sha"⟩ rfl rfl
  ⟨h.1.trans (by decide), h.2.1.trans (by decide)⟩

end AiCodeReviewer

namespace AiCodeReviewer

/-! ### C7: absent line renders "N/A" and posts at line 1 -/

/-- C7: a finding whose `line` field is absent is rendered with the
literal "N/A" in the prompt both variants build, and the review-comment
publish call of the PR variant sends line 1 for it. -/
theorem c7_missing_line (issue : Finding) (cfg : RepoCfg) (body : String)
    (h : issue.line = none) :
    lineDisplay issue.line = "N/A" ∧
    buildPrompt issue = buildPromptCore issue "N/A" ∧
    (postComment cfg body (componentPathPR issue.component) issue.line).line = 1 := by
  rw [buildPrompt, postComment, h]
  exact ⟨rfl, rfl, rfl⟩

/-- C7 (witness): a concrete finding with no line. -/
theorem c7_witness :
    lineDisplay (Finding.line ⟨"r", "MAJOR", "p:f.ts", none, "m"⟩) = "N/A" ∧
    buildPrompt ⟨"r", "MAJOR", "p:f.ts", none, "m"⟩ =
      buildPromptCore ⟨"r", "MAJOR", "p:f.ts", none, "m"⟩ "N/A" ∧
    (postComment ⟨"o", "r", "1", "sha"⟩ "body"
        (componentPathPR (Finding.component ⟨"r", "MAJOR", "p:f.ts", none, "m"⟩))
        (Finding.line ⟨"r", "MAJOR", "p:f.ts", none, "m"⟩)).line = 1 :=
  c7_missing_line ⟨"r", "MAJOR", "p:f.ts", none, "m"⟩ ⟨"o", "r", "1", "sha"⟩ "body" rfl

/-! ### C10: a present-but-falsy line is treated as absent -/

/-- C10: a finding whose `line` is present but falsy (the value 0) is
treated by both the prompt construction and the review-comment publish
call exactly as if the field were absent — the prompt renders "N/A" and
the comment is posted at line 1 — because the code tests JS truthiness
of the value, not presence of the field. -/
theorem c10_falsy_line_as_absent (issue : Finding) (cfg : RepoCfg) (body : String)
    (h : issue.line = some 0) :
    lineDisplay issue.line = lineDisplay none ∧
    lineDisplay issue.line = "N/A" ∧
    buildPrompt issue = buildPromptCore issue "N/A" ∧
    effectiveLine issue.line = effectiveLine none ∧
    (postComment cfg body (componentPathPR issue.component) issue.line).line = 1 := by
  rw [buildPrompt, postComment, h]
  exact ⟨rfl, rfl, rfl, rfl, rfl⟩

/-- C10 (witness): a concrete finding with `line = some 0`. -/
theorem c10_witness :
    lineDisplay (Finding.line ⟨"r", "MAJOR", "p:f.ts", some 0, "m"⟩) = "N/A" ∧
    buildPrompt ⟨"r", "MAJOR", "p:f.ts", some 0, "m"⟩ =
      buildPromptCore ⟨"r", "MAJOR", "p:f.ts", some 0, "m"⟩ "N/A" ∧
    (postComment ⟨"o", "r", "1", "sha"⟩ "body"
        (componentPathPR (Finding.component ⟨"r", "MAJOR", "p:f.ts", some 0, "m"⟩))
        (Finding.line ⟨"r", "MAJOR", "p:f.ts", some 0, "m"⟩)).line = 1 :=
  have h := c10_falsy_line_as_absent ⟨"r", "MAJOR", "p:f.ts", some 0, "m"⟩
    ⟨"o", "r", "1", "sha"⟩ "body" rfl
  ⟨h.2.1, h.2.2.1, h.2.2.2.2⟩

end AiCodeReviewer

namespace AiCodeReviewer

/-! ### C8/C9: runner sequencing -/

theorem runLoopConsole_steps (oracle : Finding → Nat → Except String ChatResponse)
    (issues : List Finding) : ∀ i,
    (runLoopConsole oracle issues i).1 =
      (List.range' i issues.length).flatMap
        (fun j => [Step.printHeader j, Step.enrich j, Step.printEnriched j]) := by
  induction issues with
  | nil => intro i; simp [runLoopConsole]
  | cons issue rest ih =>
    intro i
    rw [show (issue :: rest).length = rest.length + 1 from rfl, List.range'_succ]
    simp [runLoopConsole, ih (i + 1)]

theorem runLoopPR_steps (cfg : RepoCfg) (oracle : Finding → Except String ChatResponse)
    (issues : List Finding) : ∀ i,
    (runLoopPR cfg oracle issues i).1 =
      (List.range' i issues.length).flatMap
        (fun j => [Step.enrich j, Step.printEnriched j, Step.publish j]) := by
  induction issues with
  | nil => intro i; simp [runLoopPR]
  | cons issue rest ih =>
    intro i
    rw [show (issue :: rest).length = rest.length + 1 from rfl, List.range'_succ]
    simp [runLoopPR, ih (i + 1)]

/-- C8 (counterexample): in the console variant, the per-finding block
printing BEGINS before the enrichment call — the trace for one finding
is header-print, then enrichment, then enriched-review print — so the
claim that enrichment completes strictly before the publish/print step
for the finding begins is false for that variant. -/
theorem c8_counterexample :
    (runLoopConsole (fun _ _ => Except.error "x")
        [⟨"r1", "MAJOR", "p:f.ts", some 3, "m1"⟩] 0).1 =
      [Step.printHeader 0, Step.enrich 0, Step.printEnriched 0] ∧
    List.indexOf (Step.printHeader 0)
        ((runLoopConsole (fun _ _ => Except.error "x")
          [⟨"r1", "MAJOR", "p:f.ts", some 3, "m1"⟩] 0).1) <
      List.indexOf (Step.enrich 0)
        ((runLoopConsole (fun _ _ => Except.error "x")
          [⟨"r1", "MAJOR", "p:f.ts", some 3, "m1"⟩] 0).1) := by
  constructor
  · rfl
  · decide

/-- C8 (amended): both runners process findings strictly sequentially in
the order the issue source returned them, never reordering or
interleaving them: the full step trace is the per-finding triple of
steps, finding by finding.  Enrichment completes strictly before the
enriched text is printed and (in the PR variant) before the publish call
for that finding; in the console variant, however, the finding's header
block is printed before its enrichment call. -/
theorem c8_sequential_processing (cfg : RepoCfg)
    (oracleC : Finding → Nat → Except String ChatResponse)
    (oracleP : Finding → Except String ChatResponse) (issues : List Finding) :
    (runLoopConsole oracleC issues 0).1 =
      (List.range issues.length).flatMap
        (fun i => [Step.printHeader i, Step.enrich i, Step.printEnriched i]) ∧
    (runLoopPR cfg oracleP issues 0).1 =
      (List.range issues.length).flatMap
        (fun i => [Step.enrich i, Step.printEnriched i, Step.publish i]) := by
  rw [List.range_eq_range']
  exact ⟨runLoopConsole_steps oracleC issues 0, runLoopPR_steps cfg oracleP issues 0⟩

/-- C9: when the fetch succeeds with zero findings, both runners
complete successfully with an empty step trace — zero enrichment calls
and zero publish/print calls. -/
theorem c9_zero_findings (cfg : RepoCfg)
    (oracleC : Finding → Nat → Except String ChatResponse)
    (oracleP : Finding → Except String ChatResponse) (res : HttpResponse)
    (h : fetchSonarIssues res = Except.ok []) :
    runConsole oracleC res = Except.ok ([], []) ∧
    runPR cfg oracleP res = Except.ok ([], []) := by
  constructor
  · unfold runConsole
    rw [h]
    rfl
  · unfold runPR
    rw [h]
    rfl

/-- C9 (witness): an ok response whose `issues` array is empty. -/
theorem c9_witness :
    runConsole (fun _ _ => Except.error "x") ⟨true, "OK", ⟨some []⟩⟩ = Except.ok ([], []) ∧
    runPR ⟨"o", "r", "1", "sha"⟩ (fun _ => Except.error "x") ⟨true, "OK", ⟨some []⟩⟩ =
      Except.ok ([], []) :=
  c9_zero_findings ⟨"o", "r", "1", "sha"⟩ (fun _ _ => Except.error "x")
    (fun _ => Except.error "x") ⟨true, "OK", ⟨some []⟩⟩ rfl

end AiCodeReviewer
